import Mathlib

/-!
Verification of the instaloader command-line front end (`instaloader/__main__.py`).

The development shallowly embeds the three pieces of the module:

* `filterstr_to_filterfunc` — the restricted predicate compiler that turns a
  `--post-filter` / `--storyitem-filter` expression into a per-item predicate,
  rewriting every bare name into an attribute access on the current item;
* `_main` — the batch orchestrator: target classification, per-target error
  boundaries, the anonymous-retry fallback for profile downloads, session
  persistence and the empty-target-list messages;
* `main` — the slice of the argument handling that lower-cases the login name.

External collaborators (network transport, the filesystem, the structure
loader, `download_*` methods, `error_catcher`, `anonymous_copy`) are modelled
as oracles in an environment record; the orchestrator's observable behaviour
is the list of events (external calls, log lines, recorded errors) it emits.
-/

/-! ## Predicate compiler (`filterstr_to_filterfunc`) -/

/-- Expression context of a Python `ast.Name` node: `Load` for reads, `Store`
and `Del` for mutating occurrences (assignment targets, deletions). -/
inductive Ctx where
  | load
  | store
  | del
deriving DecidableEq, Repr

/-- Whether a name context is the read-only `Load` context. -/
def Ctx.isLoad : Ctx → Bool
  | .load => true
  | .store => false
  | .del => false

/-- Shallow embedding of the Python expression AST fragment that can occur in
an `ast.parse(_, mode='eval')` result and is relevant to the filter compiler:
names (with their contexts), attribute accesses (`ast.Attribute`), constants,
boolean and arithmetic connectives, comparisons, calls, and the walrus
operator `ast.NamedExpr`, whose target is a `Store`-context name. -/
inductive PExpr where
  | name (id : String) (c : Ctx)
  | attrAccess (value : PExpr) (attr : String)
  | const (v : Int)
  | boolAnd (a b : PExpr)
  | boolOr (a b : PExpr)
  | unaryNot (a : PExpr)
  | binOp (a b : PExpr)
  | compare (a b : PExpr)
  | call (f a : PExpr)
  | namedExpr (target value : PExpr)
deriving DecidableEq, Repr

/-- The item type handed to `filterstr_to_filterfunc` (`Post` or `StoryItem`):
its class name and the set of attribute names for which `hasattr` holds. -/
structure ItemType where
  tyName : String
  attrs : List String
deriving DecidableEq, Repr

/-- Faults the filter compilation can raise: a `SyntaxError` escaping
`ast.parse`, or an `InvalidArgumentException` from `visit_Name` — either the
assignment rejection ("Modifying variables ... not allowed") or the unknown
name rejection ("... not a ... attribute"). -/
inductive Fault where
  | syntaxFault (msg : String)
  | assignmentFault (id : String)
  | nameFault (id : String) (tyName : String)
deriving DecidableEq, Repr

/-- `TransformFilterAst.visit_Name`: a non-`Load` context raises the
assignment rejection; the whitelisted name `datetime` is kept as-is; a
declared attribute of the item type is rewritten to `item.<id>`; any other
name raises the unknown-name rejection. -/
def visit_Name (T : ItemType) (id : String) (c : Ctx) : Except Fault PExpr :=
  if c.isLoad then
    if id = "datetime" then .ok (.name id .load)
    else if id ∈ T.attrs then
      .ok (.attrAccess (.name "item" .load) id)
    else .error (.nameFault id T.tyName)
  else .error (.assignmentFault id)

/-- The `ast.NodeTransformer` traversal: every `Name` node goes through
`visit_Name`; all other nodes are rebuilt from their transformed children,
the first raised fault aborting the traversal. -/
def transform (T : ItemType) : PExpr → Except Fault PExpr
  | .name id c => visit_Name T id c
  | .attrAccess v a =>
      match transform T v with
      | .ok v2 => .ok (.attrAccess v2 a)
      | .error f => .error f
  | .const v => .ok (.const v)
  | .boolAnd a b =>
      match transform T a with
      | .error f => .error f
      | .ok a2 =>
          match transform T b with
          | .error f => .error f
          | .ok b2 => .ok (.boolAnd a2 b2)
  | .boolOr a b =>
      match transform T a with
      | .error f => .error f
      | .ok a2 =>
          match transform T b with
          | .error f => .error f
          | .ok b2 => .ok (.boolOr a2 b2)
  | .unaryNot a =>
      match transform T a with
      | .error f => .error f
      | .ok a2 => .ok (.unaryNot a2)
  | .binOp a b =>
      match transform T a with
      | .error f => .error f
      | .ok a2 =>
          match transform T b with
          | .error f => .error f
          | .ok b2 => .ok (.binOp a2 b2)
  | .compare a b =>
      match transform T a with
      | .error f => .error f
      | .ok a2 =>
          match transform T b with
          | .error f => .error f
          | .ok b2 => .ok (.compare a2 b2)
  | .call f a =>
      match transform T f with
      | .error g => .error g
      | .ok f2 =>
          match transform T a with
          | .error g => .error g
          | .ok a2 => .ok (.call f2 a2)
  | .namedExpr t v =>
      match transform T t with
      | .error f => .error f
      | .ok t2 =>
          match transform T v with
          | .error f => .error f
          | .ok v2 => .ok (.namedExpr t2 v2)

/-- `filterstr_to_filterfunc`: the outcome of `ast.parse(filter_str,
mode='eval')` is either a `SyntaxError` (which escapes the function) or an
expression that is then run through the `TransformFilterAst` traversal; on
success the compiled (rewritten) expression underlying the returned
`filterfunc` closure is produced. -/
def filterstr_to_filterfunc (parsed : Except String PExpr) (T : ItemType) :
    Except Fault PExpr :=
  match parsed with
  | .error msg => .error (.syntaxFault msg)
  | .ok e => transform T e

/-- Spec-side predicate: the expression contains a name occurrence in a
mutating (non-`Load`) context — an assignment, deletion or other binding. -/
def hasMutatedName : PExpr → Bool
  | .name _ c => !c.isLoad
  | .attrAccess v _ => hasMutatedName v
  | .const _ => false
  | .boolAnd a b => hasMutatedName a || hasMutatedName b
  | .boolOr a b => hasMutatedName a || hasMutatedName b
  | .unaryNot a => hasMutatedName a
  | .binOp a b => hasMutatedName a || hasMutatedName b
  | .compare a b => hasMutatedName a || hasMutatedName b
  | .call f a => hasMutatedName f || hasMutatedName a
  | .namedExpr t v => hasMutatedName t || hasMutatedName v

/-- Spec-side predicate: the expression reads (in `Load` context) a bare name
that is neither a declared attribute of the item type nor the whitelisted
calendar/time symbol `datetime`. -/
def hasUndeclaredLoadName (T : ItemType) : PExpr → Bool
  | .name id c => c.isLoad && !(id = "datetime") && !(decide (id ∈ T.attrs))
  | .attrAccess v _ => hasUndeclaredLoadName T v
  | .const _ => false
  | .boolAnd a b => hasUndeclaredLoadName T a || hasUndeclaredLoadName T b
  | .boolOr a b => hasUndeclaredLoadName T a || hasUndeclaredLoadName T b
  | .unaryNot a => hasUndeclaredLoadName T a
  | .binOp a b => hasUndeclaredLoadName T a || hasUndeclaredLoadName T b
  | .compare a b => hasUndeclaredLoadName T a || hasUndeclaredLoadName T b
  | .call f a => hasUndeclaredLoadName T f || hasUndeclaredLoadName T a
  | .namedExpr t v => hasUndeclaredLoadName T t || hasUndeclaredLoadName T v

lemma transform_ok_of_clean (T : ItemType) (e : PExpr)
    (hm : hasMutatedName e = false) (hu : hasUndeclaredLoadName T e = false) :
    ∃ e2, transform T e = .ok e2 := by
  induction e with
  | name id c =>
      cases c with
      | load =>
          by_cases hd : id = "datetime"
          · exact ⟨.name id .load,
              by simp [transform, visit_Name, Ctx.isLoad, hd]⟩
          · have hc : id ∈ T.attrs := by
              simp [hasUndeclaredLoadName, Ctx.isLoad] at hu
              exact hu hd
            exact ⟨.attrAccess (.name "item" .load) id,
              by simp [transform, visit_Name, Ctx.isLoad, hd, hc]⟩
      | store => simp [hasMutatedName, Ctx.isLoad] at hm
      | del => simp [hasMutatedName, Ctx.isLoad] at hm
  | attrAccess v a ih =>
      simp only [hasMutatedName] at hm
      simp only [hasUndeclaredLoadName] at hu
      obtain ⟨v2, hv⟩ := ih hm hu
      exact ⟨.attrAccess v2 a, by simp [transform, hv]⟩
  | const v => exact ⟨.const v, rfl⟩
  | boolAnd a b iha ihb =>
      simp only [hasMutatedName, Bool.or_eq_false_iff] at hm
      simp only [hasUndeclaredLoadName, Bool.or_eq_false_iff] at hu
      obtain ⟨a2, ha⟩ := iha hm.1 hu.1
      obtain ⟨b2, hb⟩ := ihb hm.2 hu.2
      exact ⟨.boolAnd a2 b2, by simp [transform, ha, hb]⟩
  | boolOr a b iha ihb =>
      simp only [hasMutatedName, Bool.or_eq_false_iff] at hm
      simp only [hasUndeclaredLoadName, Bool.or_eq_false_iff] at hu
      obtain ⟨a2, ha⟩ := iha hm.1 hu.1
      obtain ⟨b2, hb⟩ := ihb hm.2 hu.2
      exact ⟨.boolOr a2 b2, by simp [transform, ha, hb]⟩
  | unaryNot a ih =>
      simp only [hasMutatedName] at hm
      simp only [hasUndeclaredLoadName] at hu
      obtain ⟨a2, ha⟩ := ih hm hu
      exact ⟨.unaryNot a2, by simp [transform, ha]⟩
  | binOp a b iha ihb =>
      simp only [hasMutatedName, Bool.or_eq_false_iff] at hm
      simp only [hasUndeclaredLoadName, Bool.or_eq_false_iff] at hu
      obtain ⟨a2, ha⟩ := iha hm.1 hu.1
      obtain ⟨b2, hb⟩ := ihb hm.2 hu.2
      exact ⟨.binOp a2 b2, by simp [transform, ha, hb]⟩
  | compare a b iha ihb =>
      simp only [hasMutatedName, Bool.or_eq_false_iff] at hm
      simp only [hasUndeclaredLoadName, Bool.or_eq_false_iff] at hu
      obtain ⟨a2, ha⟩ := iha hm.1 hu.1
      obtain ⟨b2, hb⟩ := ihb hm.2 hu.2
      exact ⟨.compare a2 b2, by simp [transform, ha, hb]⟩
  | call f a ihf iha =>
      simp only [hasMutatedName, Bool.or_eq_false_iff] at hm
      simp only [hasUndeclaredLoadName, Bool.or_eq_false_iff] at hu
      obtain ⟨f2, hf⟩ := ihf hm.1 hu.1
      obtain ⟨a2, ha⟩ := iha hm.2 hu.2
      exact ⟨.call f2 a2, by simp [transform, hf, ha]⟩
  | namedExpr t v iht ihv =>
      simp only [hasMutatedName, Bool.or_eq_false_iff] at hm
      simp only [hasUndeclaredLoadName, Bool.or_eq_false_iff] at hu
      obtain ⟨t2, ht⟩ := iht hm.1 hu.1
      obtain ⟨v2, hv⟩ := ihv hm.2 hu.2
      exact ⟨.namedExpr t2 v2, by simp [transform, ht, hv]⟩

lemma transform_ok_clean (T : ItemType) (e : PExpr) (e2 : PExpr)
    (h : transform T e = .ok e2) :
    hasMutatedName e = false ∧ hasUndeclaredLoadName T e = false := by
  induction e generalizing e2 with
  | name id c =>
      cases c with
      | load =>
          simp only [transform, visit_Name, Ctx.isLoad, if_true] at h
          by_cases hd : id = "datetime"
          · simp [hasMutatedName, hasUndeclaredLoadName, Ctx.isLoad, hd]
          · simp only [hd, if_false] at h
            by_cases hc : id ∈ T.attrs
            · simp [hasMutatedName, hasUndeclaredLoadName, Ctx.isLoad, hd, hc]
            · simp [hc] at h
      | store => simp [transform, visit_Name, Ctx.isLoad] at h
      | del => simp [transform, visit_Name, Ctx.isLoad] at h
  | attrAccess v a ih =>
      simp only [transform] at h
      rcases hv : transform T v with f | v2 <;> rw [hv] at h
      · exact absurd h (by simp)
      · simpa [hasMutatedName, hasUndeclaredLoadName] using ih v2 hv
  | const v => simp [hasMutatedName, hasUndeclaredLoadName]
  | boolAnd a b iha ihb =>
      simp only [transform] at h
      rcases ha : transform T a with f | a2 <;> rw [ha] at h
      · exact absurd h (by simp)
      · rcases hb : transform T b with f | b2 <;> rw [hb] at h
        · exact absurd h (by simp)
        · obtain ⟨h1, h2⟩ := iha a2 ha
          obtain ⟨h3, h4⟩ := ihb b2 hb
          simp [hasMutatedName, hasUndeclaredLoadName, h1, h2, h3, h4]
  | boolOr a b iha ihb =>
      simp only [transform] at h
      rcases ha : transform T a with f | a2 <;> rw [ha] at h
      · exact absurd h (by simp)
      · rcases hb : transform T b with f | b2 <;> rw [hb] at h
        · exact absurd h (by simp)
        · obtain ⟨h1, h2⟩ := iha a2 ha
          obtain ⟨h3, h4⟩ := ihb b2 hb
          simp [hasMutatedName, hasUndeclaredLoadName, h1, h2, h3, h4]
  | unaryNot a ih =>
      simp only [transform] at h
      rcases ha : transform T a with f | a2 <;> rw [ha] at h
      · exact absurd h (by simp)
      · simpa [hasMutatedName, hasUndeclaredLoadName] using ih a2 ha
  | binOp a b iha ihb =>
      simp only [transform] at h
      rcases ha : transform T a with f | a2 <;> rw [ha] at h
      · exact absurd h (by simp)
      · rcases hb : transform T b with f | b2 <;> rw [hb] at h
        · exact absurd h (by simp)
        · obtain ⟨h1, h2⟩ := iha a2 ha
          obtain ⟨h3, h4⟩ := ihb b2 hb
          simp [hasMutatedName, hasUndeclaredLoadName, h1, h2, h3, h4]
  | compare a b iha ihb =>
      simp only [transform] at h
      rcases ha : transform T a with f | a2 <;> rw [ha] at h
      · exact absurd h (by simp)
      · rcases hb : transform T b with f | b2 <;> rw [hb] at h
        · exact absurd h (by simp)
        · obtain ⟨h1, h2⟩ := iha a2 ha
          obtain ⟨h3, h4⟩ := ihb b2 hb
          simp [hasMutatedName, hasUndeclaredLoadName, h1, h2, h3, h4]
  | call f a ihf iha =>
      simp only [transform] at h
      rcases hf : transform T f with g | f2 <;> rw [hf] at h
      · exact absurd h (by simp)
      · rcases ha : transform T a with g | a2 <;> rw [ha] at h
        · exact absurd h (by simp)
        · obtain ⟨h1, h2⟩ := ihf f2 hf
          obtain ⟨h3, h4⟩ := iha a2 ha
          simp [hasMutatedName, hasUndeclaredLoadName, h1, h2, h3, h4]
  | namedExpr t v iht ihv =>
      simp only [transform] at h
      rcases ht : transform T t with f | t2 <;> rw [ht] at h
      · exact absurd h (by simp)
      · rcases hv : transform T v with f | v2 <;> rw [hv] at h
        · exact absurd h (by simp)
        · obtain ⟨h1, h2⟩ := iht t2 ht
          obtain ⟨h3, h4⟩ := ihv v2 hv
          simp [hasMutatedName, hasUndeclaredLoadName, h1, h2, h3, h4]

lemma transform_error_cases (T : ItemType) (e : PExpr) (f : Fault)
    (h : transform T e = .error f) :
    (∃ id, f = .assignmentFault id ∧ hasMutatedName e = true) ∨
    (∃ id ty, f = .nameFault id ty ∧ hasUndeclaredLoadName T e = true) := by
  induction e generalizing f with
  | name id c =>
      cases c with
      | load =>
          simp only [transform, visit_Name, Ctx.isLoad, if_true] at h
          by_cases hd : id = "datetime"
          · simp [hd] at h
          · simp only [hd, if_false] at h
            by_cases hc : id ∈ T.attrs
            · simp [hc] at h
            · simp only [hc, if_false, Except.error.injEq] at h
              refine .inr ⟨id, T.tyName, h.symm, ?_⟩
              simp [hasUndeclaredLoadName, Ctx.isLoad, hd, hc]
      | store =>
          simp only [transform, visit_Name, Ctx.isLoad, Bool.false_eq_true,
            if_false, Except.error.injEq] at h
          exact .inl ⟨id, h.symm, by simp [hasMutatedName, Ctx.isLoad]⟩
      | del =>
          simp only [transform, visit_Name, Ctx.isLoad, Bool.false_eq_true,
            if_false, Except.error.injEq] at h
          exact .inl ⟨id, h.symm, by simp [hasMutatedName, Ctx.isLoad]⟩
  | attrAccess v a ih =>
      simp only [transform] at h
      rcases hv : transform T v with g | v2 <;> rw [hv] at h
      · cases h
        rcases ih f hv with ⟨id, hf, hmut⟩ | ⟨id, ty, hf, hund⟩
        · exact .inl ⟨id, hf, by simp [hasMutatedName, hmut]⟩
        · exact .inr ⟨id, ty, hf, by simp [hasUndeclaredLoadName, hund]⟩
      · exact absurd h (by simp)
  | const v => simp [transform] at h
  | boolAnd a b iha ihb =>
      simp only [transform] at h
      rcases ha : transform T a with g | a2 <;> rw [ha] at h
      · cases h
        rcases iha f ha with ⟨id, hf, hmut⟩ | ⟨id, ty, hf, hund⟩
        · exact .inl ⟨id, hf, by simp [hasMutatedName, hmut]⟩
        · exact .inr ⟨id, ty, hf, by simp [hasUndeclaredLoadName, hund]⟩
      · rcases hb : transform T b with g | b2 <;> rw [hb] at h
        · cases h
          rcases ihb f hb with ⟨id, hf, hmut⟩ | ⟨id, ty, hf, hund⟩
          · exact .inl ⟨id, hf, by simp [hasMutatedName, hmut]⟩
          · exact .inr ⟨id, ty, hf, by simp [hasUndeclaredLoadName, hund]⟩
        · exact absurd h (by simp)
  | boolOr a b iha ihb =>
      simp only [transform] at h
      rcases ha : transform T a with g | a2 <;> rw [ha] at h
      · cases h
        rcases iha f ha with ⟨id, hf, hmut⟩ | ⟨id, ty, hf, hund⟩
        · exact .inl ⟨id, hf, by simp [hasMutatedName, hmut]⟩
        · exact .inr ⟨id, ty, hf, by simp [hasUndeclaredLoadName, hund]⟩
      · rcases hb : transform T b with g | b2 <;> rw [hb] at h
        · cases h
          rcases ihb f hb with ⟨id, hf, hmut⟩ | ⟨id, ty, hf, hund⟩
          · exact .inl ⟨id, hf, by simp [hasMutatedName, hmut]⟩
          · exact .inr ⟨id, ty, hf, by simp [hasUndeclaredLoadName, hund]⟩
        · exact absurd h (by simp)
  | unaryNot a ih =>
      simp only [transform] at h
      rcases ha : transform T a with g | a2 <;> rw [ha] at h
      · cases h
        rcases ih f ha with ⟨id, hf, hmut⟩ | ⟨id, ty, hf, hund⟩
        · exact .inl ⟨id, hf, by simp [hasMutatedName, hmut]⟩
        · exact .inr ⟨id, ty, hf, by simp [hasUndeclaredLoadName, hund]⟩
      · exact absurd h (by simp)
  | binOp a b iha ihb =>
      simp only [transform] at h
      rcases ha : transform T a with g | a2 <;> rw [ha] at h
      · cases h
        rcases iha f ha with ⟨id, hf, hmut⟩ | ⟨id, ty, hf, hund⟩
        · exact .inl ⟨id, hf, by simp [hasMutatedName, hmut]⟩
        · exact .inr ⟨id, ty, hf, by simp [hasUndeclaredLoadName, hund]⟩
      · rcases hb : transform T b with g | b2 <;> rw [hb] at h
        · cases h
          rcases ihb f hb with ⟨id, hf, hmut⟩ | ⟨id, ty, hf, hund⟩
          · exact .inl ⟨id, hf, by simp [hasMutatedName, hmut]⟩
          · exact .inr ⟨id, ty, hf, by simp [hasUndeclaredLoadName, hund]⟩
        · exact absurd h (by simp)
  | compare a b iha ihb =>
      simp only [transform] at h
      rcases ha : transform T a with g | a2 <;> rw [ha] at h
      · cases h
        rcases iha f ha with ⟨id, hf, hmut⟩ | ⟨id, ty, hf, hund⟩
        · exact .inl ⟨id, hf, by simp [hasMutatedName, hmut]⟩
        · exact .inr ⟨id, ty, hf, by simp [hasUndeclaredLoadName, hund]⟩
      · rcases hb : transform T b with g | b2 <;> rw [hb] at h
        · cases h
          rcases ihb f hb with ⟨id, hf, hmut⟩ | ⟨id, ty, hf, hund⟩
          · exact .inl ⟨id, hf, by simp [hasMutatedName, hmut]⟩
          · exact .inr ⟨id, ty, hf, by simp [hasUndeclaredLoadName, hund]⟩
        · exact absurd h (by simp)
  | call f0 a ihf iha =>
      simp only [transform] at h
      rcases hf0 : transform T f0 with g | f2 <;> rw [hf0] at h
      · cases h
        rcases ihf f hf0 with ⟨id, hf, hmut⟩ | ⟨id, ty, hf, hund⟩
        · exact .inl ⟨id, hf, by simp [hasMutatedName, hmut]⟩
        · exact .inr ⟨id, ty, hf, by simp [hasUndeclaredLoadName, hund]⟩
      · rcases ha : transform T a with g | a2 <;> rw [ha] at h
        · cases h
          rcases iha f ha with ⟨id, hf, hmut⟩ | ⟨id, ty, hf, hund⟩
          · exact .inl ⟨id, hf, by simp [hasMutatedName, hmut]⟩
          · exact .inr ⟨id, ty, hf, by simp [hasUndeclaredLoadName, hund]⟩
        · exact absurd h (by simp)
  | namedExpr t v iht ihv =>
      simp only [transform] at h
      rcases ht : transform T t with g | t2 <;> rw [ht] at h
      · cases h
        rcases iht f ht with ⟨id, hf, hmut⟩ | ⟨id, ty, hf, hund⟩
        · exact .inl ⟨id, hf, by simp [hasMutatedName, hmut]⟩
        · exact .inr ⟨id, ty, hf, by simp [hasUndeclaredLoadName, hund]⟩
      · rcases hv : transform T v with g | v2 <;> rw [hv] at h
        · cases h
          rcases ihv f hv with ⟨id, hf, hmut⟩ | ⟨id, ty, hf, hund⟩
          · exact .inl ⟨id, hf, by simp [hasMutatedName, hmut]⟩
          · exact .inr ⟨id, ty, hf, by simp [hasUndeclaredLoadName, hund]⟩
        · exact absurd h (by simp)

/-- C1: For every filter expression string and declared item type, predicate
compilation fails before any evaluation: with a syntax fault if the text does
not parse as a single expression; on a parsed expression it succeeds exactly
when the expression mutates no name and references no bare load-context name
other than declared attributes and the whitelisted `datetime` symbol, it
reports an assignment fault only when some name is mutated, and a name fault
only when some undeclared bare name is referenced. -/
theorem claim_C1_predicate_compilation (p : Except String PExpr)
    (T : ItemType) :
    (∀ msg, p = .error msg →
      filterstr_to_filterfunc p T = .error (.syntaxFault msg)) ∧
    (∀ e, p = .ok e →
      ((∃ e2, filterstr_to_filterfunc p T = .ok e2) ↔
        (hasMutatedName e = false ∧ hasUndeclaredLoadName T e = false)) ∧
      (∀ id, filterstr_to_filterfunc p T = .error (.assignmentFault id) →
        hasMutatedName e = true) ∧
      (∀ id ty, filterstr_to_filterfunc p T = .error (.nameFault id ty) →
        hasUndeclaredLoadName T e = true)) := by
  constructor
  · intro msg hp
    subst hp
    rfl
  · intro e hp
    subst hp
    simp only [filterstr_to_filterfunc]
    refine ⟨⟨?_, ?_⟩, ?_, ?_⟩
    · rintro ⟨e2, h⟩
      exact transform_ok_clean T e e2 h
    · rintro ⟨hm, hu⟩
      exact transform_ok_of_clean T e hm hu
    · intro id h
      rcases transform_error_cases T e _ h with ⟨id2, hf, hmut⟩ |
        ⟨id2, ty2, hf, _⟩
      · exact hmut
      · cases hf
    · intro id ty h
      rcases transform_error_cases T e _ h with ⟨id2, hf, _⟩ |
        ⟨id2, ty2, hf, hund⟩
      · cases hf
      · exact hund

/-- Sample item type standing in for `Post` (a class outside this module),
with a few of its documented read-only attributes. -/
def postSample : ItemType :=
  ⟨"Post", ["viewer_has_liked", "date_utc", "likes", "is_video"]⟩

/-- Witness for C1: `viewer_has_liked` compiles against the sample item type. -/
theorem claim_C1_predicate_compilation_witness :
    ∃ e2, filterstr_to_filterfunc (.ok (.name "viewer_has_liked" .load))
      postSample = .ok e2 :=
  (((claim_C1_predicate_compilation (.ok (.name "viewer_has_liked" .load))
      postSample).2 (.name "viewer_has_liked" .load) rfl).1).mpr
    ⟨by decide, by decide⟩

/-! ## Target classification (`_main`, target loop head) -/

/-- Python `str.rstrip('/')`: drop every trailing `'/'` character. -/
def rstripSlash (s : String) : String :=
  ⟨(s.data.reverse.dropWhile (fun c => c = '/')).reverse⟩

/-- Python `str.endswith(suf)`: the suffix test, computed on the reversed
character lists. -/
def strEndsWith (s suf : String) : Bool :=
  suf.data.reverse.isPrefixOf s.data.reverse

/-- Python `target[1:]`: drop the first character. -/
def strDropHead (s : String) : String := ⟨s.data.drop 1⟩

/-- Exceptions visible to the orchestrator: `interrupt` is a
`KeyboardInterrupt`; `profileNotExists` is `ProfileNotExistsException`;
`fault` covers every other exception that a target's processing can raise
(network faults, `InvalidArgumentException`, the `IndexError` from indexing
an empty target, ...). -/
inductive Exc where
  | fault (msg : String)
  | profileNotExists (msg : String)
  | interrupt
deriving DecidableEq, Repr

/-- The typed classification of one raw target string. -/
inductive Target where
  | localDescriptorFile (path : String)
  | accountFollowees (name : String)
  | tag (name : String)
  | specialFeed
  | specialStories
  | specialSaved
  | accountName (name : String)
deriving DecidableEq, Repr

/-- The local-descriptor-file test of line 96: performed on the RAW target
(before any stripping): the string ends in `.json` or `.json.xz` and the
filesystem oracle reports an existing file. -/
def isDescriptorPath (isfile : String → Bool) (t : String) : Bool :=
  (strEndsWith t ".json" || strEndsWith t ".json.xz") && isfile t

/-- The sigil dispatch of lines 121-138, applied to the stripped target:
`target[0]` (an `IndexError` on the empty string), then the `@` / `#` sigils,
the exact special literals, and the bare-account fallthrough. -/
def classifySigil (s : String) : Except Exc Target :=
  match s.data with
  | [] => .error (.fault "IndexError: string index out of range")
  | c :: _ =>
      if c = '@' then .ok (.accountFollowees (strDropHead s))
      else if c = '#' then .ok (.tag (strDropHead s))
      else if s = ":feed" then .ok .specialFeed
      else if s = ":stories" then .ok .specialStories
      else if s = ":saved" then .ok .specialSaved
      else .ok (.accountName s)

/-- Classification of one raw target, exactly in the order of lines 96-138:
the descriptor-file check on the raw string first, otherwise the sigil
dispatch on the `rstrip('/')`-stripped string. -/
def classify (isfile : String → Bool) (t : String) : Except Exc Target :=
  if isDescriptorPath isfile t then .ok (.localDescriptorFile t)
  else classifySigil (rstripSlash t)

lemma isPrefixOf_head_eq (a b : Char) (as bs l : List Char)
    (ha : (a :: as).isPrefixOf l = true)
    (hb : (b :: bs).isPrefixOf l = true) : a = b := by
  cases l with
  | nil => simp [List.isPrefixOf] at ha
  | cons c cs =>
      simp only [List.isPrefixOf, Bool.and_eq_true, beq_iff_eq] at ha hb
      rw [ha.1, hb.1]

lemma strEndsWith_excl (t s1 s2 : String) (c1 c2 : Char) (r1 r2 : List Char)
    (h1 : s1.data.reverse = c1 :: r1) (h2 : s2.data.reverse = c2 :: r2)
    (hne : c1 ≠ c2) (h : strEndsWith t s1 = true) :
    strEndsWith t s2 = false := by
  unfold strEndsWith at h ⊢
  rw [h1] at h
  rw [h2]
  by_contra hb
  simp only [Bool.not_eq_false] at hb
  exact hne (isPrefixOf_head_eq c1 c2 r1 r2 _ h hb)

lemma endsSlash_not_descriptor (fs : String → Bool) (t : String)
    (h : strEndsWith t "/" = true) : isDescriptorPath fs t = false := by
  have hj : strEndsWith t ".json" = false :=
    strEndsWith_excl t "/" ".json" '/' 'n' [] ['o', 's', 'j', '.']
      (by decide) (by decide) (by decide) h
  have hx : strEndsWith t ".json.xz" = false :=
    strEndsWith_excl t "/" ".json.xz" '/' 'z'
      [] ['x', '.', 'n', 'o', 's', 'j', '.']
      (by decide) (by decide) (by decide) h
  simp [isDescriptorPath, hj, hx]

lemma classifySigil_ne_local (s p : String) :
    classifySigil s ≠ .ok (.localDescriptorFile p) := by
  unfold classifySigil
  cases hs : s.data with
  | nil => simp
  | cons c l =>
      by_cases h1 : c = '@' <;> by_cases h2 : c = '#' <;>
        by_cases h3 : s = ":feed" <;> by_cases h4 : s = ":stories" <;>
          by_cases h5 : s = ":saved" <;> simp [h1, h2, h3, h4, h5]

lemma classifySigil_ok_of_ne_empty (s : String) (h : s ≠ "") :
    ∃ v, classifySigil s = .ok v := by
  have hd : s.data ≠ [] := by
    intro hnil
    apply h
    have hx : s = ⟨s.data⟩ := rfl
    rw [hx, hnil]
  unfold classifySigil
  cases hs : s.data with
  | nil => exact absurd hs hd
  | cons c l =>
      by_cases h1 : c = '@' <;> by_cases h2 : c = '#' <;>
        by_cases h3 : s = ":feed" <;> by_cases h4 : s = ":stories" <;>
          by_cases h5 : s = ":saved" <;> simp [h1, h2, h3, h4, h5]

/-- C5 counterexample: classification of the empty raw target string raises
an `IndexError` (from `target[0]` after stripping) instead of producing a
Target variant, so classification is not total. -/
theorem claim_C5_classification_counterexample :
    classify (fun _ => false) "" =
      .error (.fault "IndexError: string index out of range") := rfl

/-- C5 (amended): classification is a fixed function of the raw target and
the filesystem state; it produces exactly one Target variant without raising
for every raw target that is nonempty after stripping trailing `'/'`, and it
raises an `IndexError` for any non-descriptor target that is empty after
stripping (the empty string or a string of only separators). -/
theorem claim_C5_classification_total_amended (fs : String → Bool)
    (t : String) :
    (rstripSlash t ≠ "" → ∃ v, classify fs t = .ok v) ∧
    (isDescriptorPath fs t = false → rstripSlash t = "" →
      classify fs t =
        .error (.fault "IndexError: string index out of range")) := by
  constructor
  · intro h
    unfold classify
    by_cases hd : isDescriptorPath fs t
    · exact ⟨.localDescriptorFile t, by simp [hd]⟩
    · obtain ⟨v, hv⟩ := classifySigil_ok_of_ne_empty (rstripSlash t) h
      exact ⟨v, by simp [hd, hv]⟩
  · intro hd he
    unfold classify
    rw [hd]
    simp only [Bool.false_eq_true, if_false]
    rw [he]
    rfl

/-- Witness for C5 (amended): the target `alice` classifies successfully. -/
theorem claim_C5_classification_total_amended_witness :
    ∃ v, classify (fun _ => false) "alice" = .ok v :=
  (claim_C5_classification_total_amended (fun _ => false) "alice").1
    (by decide)

/-- C8: a raw target with a trailing `'/'` never takes the
local-descriptor-file branch — even when its stripped form ends in a
recognized descriptor suffix and names an existing file — because line 96
tests the raw string before line 119 strips separators; the target is
classified by the sigil rules on the stripped string instead. -/
theorem claim_C8_trailing_separator (fs : String → Bool) (t : String)
    (h1 : strEndsWith t "/" = true)
    (h2 : strEndsWith (rstripSlash t) ".json" = true ∨
      strEndsWith (rstripSlash t) ".json.xz" = true)
    (h3 : fs (rstripSlash t) = true) :
    (∀ p, classify fs t ≠ .ok (.localDescriptorFile p)) ∧
    classify fs t = classifySigil (rstripSlash t) := by
  have hd : isDescriptorPath fs t = false := endsSlash_not_descriptor fs t h1
  have hc : classify fs t = classifySigil (rstripSlash t) := by
    unfold classify
    rw [hd]
    simp
  exact ⟨fun p => hc ▸ classifySigil_ne_local (rstripSlash t) p, hc⟩

/-- Witness for C8: `x.json/` with `x.json` an existing file still goes to
the sigil rules (and ends up a bare account name). -/
theorem claim_C8_trailing_separator_witness :
    classify (fun s => s == "x.json") "x.json/" =
      classifySigil (rstripSlash "x.json/") :=
  (claim_C8_trailing_separator (fun s => s == "x.json") "x.json/"
    (by decide) (.inl (by decide)) (by decide)).2

/-! ## Batch orchestrator (`_main`) -/

/-- Python `os.path.dirname` (posix): everything up to the last `'/'`, with
trailing separators stripped unless the head consists only of separators;
the empty string when there is no separator. -/
def pyDirname (p : String) : String :=
  let headRev := p.data.reverse.dropWhile (fun c => !decide (c = '/'))
  if headRev.all (fun c => decide (c = '/')) then ⟨headRev.reverse⟩
  else ⟨(headRev.dropWhile (fun c => decide (c = '/'))).reverse⟩

/-- An item descriptor returned by the external loader
`load_structure_from_file`: a Post or StoryItem (with its string rendering,
used in log lines), a Profile (with its username), or any other structure
(with its class name). -/
inductive Structure where
  | post (srepr : String)
  | storyItem (srepr : String)
  | profile (username : String)
  | other (className : String)
deriving DecidableEq, Repr

/-- One observable external effect of the orchestrator: a log line, a
recorded per-target error, an external download/fetch call (with the
arguments the orchestrator passes), a session save, or the interrupt notice. -/
inductive Event where
  | log (msg : String)
  | errorRecord (target : Option String) (cause : String)
  | downloadPost (item : String) (dir : String)
  | downloadStoryItem (item : String) (dir : String)
  | retrieveFollowees (name : String)
  | downloadHashtag (name : String)
  | downloadFeed
  | downloadStoriesCall
  | downloadSaved
  | downloadProfile (anonymous profilePic profilePicOnly fastUpdate
      stories storiesOnly hasPostFilter hasStoryFilter : Bool)
      (name : String)
  | saveSession
  | printInterrupted
deriving DecidableEq, Repr

/-- The `_main` parameters that steer the loops: the download flags and the
two optional compiled filter predicates. -/
structure Cfg where
  profilePic : Bool
  profilePicOnly : Bool
  fastUpdate : Bool
  stories : Bool
  storiesOnly : Bool
  postFilter : Option (Structure → Bool)
  storyitemFilter : Option (Structure → Bool)

/-- The external collaborators, as outcome oracles: the filesystem test, the
structure loader, and the result of each download/fetch call (`none` means
success; an `Exc` is the exception the call raises, `interrupt` standing for
a `KeyboardInterrupt` arriving during the call). `profileResult` is keyed by
whether the calling loader is the anonymous copy. -/
structure Env where
  argv0 : String
  isfile : String → Bool
  loadStructure : String → Except Exc Structure
  downloadPostResult : String → Option Exc
  downloadStoryItemResult : String → Option Exc
  followeesResult : String → Except Exc (List String)
  hashtagResult : String → Option Exc
  feedResult : Option Exc
  storiesResult : Option Exc
  savedResult : Option Exc
  profileResult : Bool → String → Option Exc

/-- Modelled from the spec: `InstaloaderContext.error_catcher` is defined
outside this module; per the spec it is the scoped failure boundary — "any
fault raised while resolving or downloading that one target is caught,
recorded as an ErrorRecord, logged, and the loop proceeds", while an
interrupt is "not an error" and propagates to the orchestrator's shutdown
path. Given the events emitted so far and the outcome of the guarded block,
it returns the final events and whether an interrupt escaped. -/
def catchInto (tag : Option String) (evs : List Event) (res : Option Exc) :
    List Event × Bool :=
  match res with
  | none => (evs, false)
  | some .interrupt => (evs, true)
  | some (.fault m) => (evs ++ [.errorRecord tag m], false)
  | some (.profileNotExists m) => (evs ++ [.errorRecord tag m], false)

/-- Lines 97-116: the body guarded by `error_catcher(target)` for a
local-descriptor target: load the structure, dispatch on its tag, apply the
matching filter (skipping with a log line), invoke the single-item download,
and raise `InvalidArgumentException` for Profile or unsupported tags.
Returns the emitted events and the outcome to hand to the boundary. -/
def processLocalFile (env : Env) (cfg : Cfg) (t : String) :
    List Event × Option Exc :=
  match env.loadStructure t with
  | .error e => ([], some e)
  | .ok (.post r) =>
      match cfg.postFilter with
      | some f =>
          if f (.post r) then
            ([.log ("Downloading " ++ r ++ " (" ++ t ++ ")"),
              .downloadPost r (pyDirname t)], env.downloadPostResult t)
          else ([.log ("<" ++ r ++ " (" ++ t ++ ") skipped>")], none)
      | none =>
          ([.log ("Downloading " ++ r ++ " (" ++ t ++ ")"),
            .downloadPost r (pyDirname t)], env.downloadPostResult t)
  | .ok (.storyItem r) =>
      match cfg.storyitemFilter with
      | some f =>
          if f (.storyItem r) then
            ([.log ("Attempting to download " ++ r ++ " (" ++ t ++ ")"),
              .downloadStoryItem r (pyDirname t)],
             env.downloadStoryItemResult t)
          else ([.log ("<" ++ r ++ " (" ++ t ++ ") skipped>")], none)
      | none =>
          ([.log ("Attempting to download " ++ r ++ " (" ++ t ++ ")"),
            .downloadStoryItem r (pyDirname t)],
           env.downloadStoryItemResult t)
  | .ok (.profile u) =>
      ([], some (.fault ("Profile JSON are ignored. Pass \"" ++ u ++
        "\" to download that profile")))
  | .ok (.other c) =>
      ([], some (.fault (c ++ " JSON file not supported as target")))

/-- The outcome of processing one raw target: the events emitted, the
account names added to the profiles set, and whether an interrupt escaped. -/
structure StepOut where
  evs : List Event
  adds : List String
  intr : Bool

/-- Lines 95-138: process one raw target — classify it, then either run the
local-file branch, the followee expansion, one of the bulk download calls,
or add a bare account name to the profiles set; every raising branch is
guarded by the scoped failure boundary. -/
def processTarget (env : Env) (cfg : Cfg) (t : String) : StepOut :=
  match classify env.isfile t with
  | .error e =>
      let r := catchInto (some (rstripSlash t)) [] (some e)
      ⟨r.1, [], r.2⟩
  | .ok (.localDescriptorFile p) =>
      let body := processLocalFile env cfg p
      let r := catchInto (some p) body.1 body.2
      ⟨r.1, [], r.2⟩
  | .ok (.accountFollowees name) =>
      let evs0 := [Event.log ("Retrieving followees of " ++ name ++ "..."),
        Event.retrieveFollowees name]
      match env.followeesResult name with
      | .error e =>
          let r := catchInto (some (rstripSlash t)) evs0 (some e)
          ⟨r.1, [], r.2⟩
      | .ok l => ⟨evs0, l, false⟩
  | .ok (.tag name) =>
      let r := catchInto (some (rstripSlash t)) [Event.downloadHashtag name]
        (env.hashtagResult name)
      ⟨r.1, [], r.2⟩
  | .ok .specialFeed =>
      let r := catchInto (some (rstripSlash t)) [Event.downloadFeed]
        env.feedResult
      ⟨r.1, [], r.2⟩
  | .ok .specialStories =>
      let r := catchInto (some (rstripSlash t)) [Event.downloadStoriesCall]
        env.storiesResult
      ⟨r.1, [], r.2⟩
  | .ok .specialSaved =>
      let r := catchInto (some (rstripSlash t)) [Event.downloadSaved]
        env.savedResult
      ⟨r.1, [], r.2⟩
  | .ok (.accountName n) => ⟨[], [n], false⟩

/-- Python set insertion: add the name unless already present (the model
fixes insertion order as the set's iteration order). -/
def insertNew (P : List String) (n : String) : List String :=
  if n ∈ P then P else P ++ [n]

/-- `profiles.update(...)`: insert every name of the list. -/
def insertAll (P : List String) (ns : List String) : List String :=
  ns.foldl insertNew P

/-- The outcome of the raw-target loop: events, the accumulated profiles
set, and whether an interrupt escaped. -/
structure LoopOut where
  evs : List Event
  profiles : List String
  intr : Bool

/-- The raw-target loop of lines 95-138, threading the profiles set; an
escaping interrupt stops the loop. -/
def targetLoop (env : Env) (cfg : Cfg) :
    List String → List String → LoopOut
  | [], P => ⟨[], P, false⟩
  | t :: ts, P =>
      let s := processTarget env cfg t
      if s.intr then ⟨s.evs, P, true⟩
      else
        let r := targetLoop env cfg ts (insertAll P s.adds)
        ⟨s.evs ++ r.evs, r.profiles, r.intr⟩

/-- Lines 142-157: one iteration of the profile loop — the authenticated
`download_profile` call inside `error_catcher(target)`, with the
`ProfileNotExistsException` fallback: when logged in, one retry through a
fresh `anonymous_copy` (no stories, no stories-only, no storyitem filter)
inside a tagless `error_catcher()`; otherwise the exception is re-raised to
the per-target boundary. -/
def profileStep (env : Env) (cfg : Cfg) (li : Bool) (n : String) :
    List Event × Bool :=
  let authEv := Event.downloadProfile false cfg.profilePic cfg.profilePicOnly
    cfg.fastUpdate cfg.stories cfg.storiesOnly cfg.postFilter.isSome
    cfg.storyitemFilter.isSome n
  match env.profileResult false n with
  | none => ([authEv], false)
  | some .interrupt => ([authEv], true)
  | some (.fault m) => ([authEv, .errorRecord (some n) m], false)
  | some (.profileNotExists m) =>
      if li then
        let anonEv := Event.downloadProfile true cfg.profilePic
          cfg.profilePicOnly cfg.fastUpdate false false cfg.postFilter.isSome
          false n
        let r := catchInto none [anonEv] (env.profileResult true n)
        ([authEv, .log m,
          .log "Trying again anonymously, helps in case you are just blocked."]
          ++ r.1, r.2)
      else ([authEv, .errorRecord (some n) m], false)

/-- The profile loop of lines 142-157; an escaping interrupt stops it. -/
def profileLoop (env : Env) (cfg : Cfg) (li : Bool) :
    List String → List Event × Bool
  | [] => ([], false)
  | n :: ns =>
      let r := profileStep env cfg li n
      if r.2 then (r.1, true)
      else
        let r2 := profileLoop env cfg li ns
        (r.1 ++ r2.1, r2.2)

/-- `usage_string()` with the executable name as a parameter (the source
reads it from `sys.argv`). -/
def usage_string (argv0 : String) : String :=
  let pad := String.mk (List.replicate argv0.length ' ')
  "\n" ++ argv0 ++ " [--comments] [--geotags] [--stories]\n" ++
  pad ++ " [--login YOUR-USERNAME] [--fast-update]\n" ++
  pad ++ " profile | \"#hashtag\" | :stories | :feed | :saved\n" ++
  argv0 ++ " --help"

/-- The observable outcome of a `_main` run (after the login phase): the
full event trace and whether a `KeyboardInterrupt` cut the loops short. -/
structure RunResult where
  events : List Event
  interrupted : Bool

/-- Lines 139-140: the header log emitted when more than one profile was
gathered. -/
def profilesHeader (P : List String) : List Event :=
  if P.length > 1 then
    [Event.log ("Downloading " ++ toString P.length ++ " profiles: " ++
      String.intercalate " " P)]
  else []

/-- Lines 139-157 as reached after the raw-target loop: skipped entirely
when that loop was interrupted, otherwise the header log followed by the
profile loop. -/
def profilePhase (env : Env) (cfg : Cfg) (li : Bool) (r1 : LoopOut) :
    List Event × Bool :=
  if r1.intr then ([], false)
  else
    (profilesHeader r1.profiles ++ (profileLoop env cfg li r1.profiles).1,
     (profileLoop env cfg li r1.profiles).2)

/-- Lines 163-170: the messages at the end of a run whose target list was
empty. -/
def endMessages (env : Env) (li : Bool) (ts : List String) : List Event :=
  if ts.isEmpty then
    if li then
      [Event.log "No targets were specified, thus nothing has been downloaded."]
    else [Event.log ("usage:" ++ usage_string env.argv0)]
  else []

/-- Lines 92-170 of `_main`: the raw-target loop, the profile phase, the
`KeyboardInterrupt` handler (print the notice and fall through), the
conditional session save, and the empty-target-list messages. `li` is
`context.is_logged_in` after the login phase. -/
def runMain (env : Env) (cfg : Cfg) (li : Bool) (ts : List String) :
    RunResult :=
  let r1 := targetLoop env cfg ts []
  let pr := profilePhase env cfg li r1
  let intr := r1.intr || pr.2
  ⟨r1.evs ++ pr.1 ++
    (if intr then [Event.printInterrupted] else []) ++
    (if li then [Event.saveSession] else []) ++
    endMessages env li ts, intr⟩

/-! ## Helper predicates and lemmas about the orchestrator -/

/-- Whether an event is the session save. -/
def isSaveEv : Event → Bool
  | .saveSession => true
  | _ => false

/-- Whether an event is a `download_profile` invocation. -/
def isDpEv : Event → Bool
  | .downloadProfile _ _ _ _ _ _ _ _ _ => true
  | _ => false

/-- Whether an event is an anonymous-copy `download_profile` invocation for
the given account. -/
def isAnonDpFor (n : String) : Event → Bool
  | .downloadProfile a _ _ _ _ _ _ _ n2 => a && n2 == n
  | _ => false

/-- Whether an event is one of the plain body effects of the target loop
(logs and non-profile download calls) — not an error record, a profile
download, a session save or the interrupt notice. -/
def bodyEv : Event → Bool
  | .log _ => true
  | .downloadPost _ _ => true
  | .downloadStoryItem _ _ => true
  | .retrieveFollowees _ => true
  | .downloadHashtag _ => true
  | .downloadFeed => true
  | .downloadStoriesCall => true
  | .downloadSaved => true
  | _ => false

/-- The ErrorRecord list carried by an event trace: the (target, cause)
pairs of its recorded errors. -/
def errorRecordsOf (evs : List Event) : List (Option String × String) :=
  evs.filterMap (fun e =>
    match e with
    | .errorRecord tg m => some (tg, m)
    | _ => none)

/-- How many anonymous-copy retries for the given account a trace contains. -/
def anonRetryCount (evs : List Event) (n : String) : Nat :=
  (evs.filter (isAnonDpFor n)).length

lemma errorRecordsOf_append (a b : List Event) :
    errorRecordsOf (a ++ b) = errorRecordsOf a ++ errorRecordsOf b := by
  unfold errorRecordsOf
  exact List.filterMap_append a b _

lemma errorRecordsOf_flatMap {α : Type} (l : List α) (f : α → List Event) :
    errorRecordsOf (l.flatMap f) = l.flatMap (fun x => errorRecordsOf (f x)) := by
  induction l with
  | nil => rfl
  | cons x l ih => simp [List.flatMap_cons, errorRecordsOf_append, ih]

lemma anonCount_append (a b : List Event) (n : String) :
    anonRetryCount (a ++ b) n = anonRetryCount a n + anonRetryCount b n := by
  unfold anonRetryCount
  rw [List.filter_append, List.length_append]

lemma anonCount_eq_zero (evs : List Event) (n : String)
    (h : ∀ e ∈ evs, isAnonDpFor n e = false) : anonRetryCount evs n = 0 := by
  unfold anonRetryCount
  rw [List.filter_eq_nil.mpr (by intro a ha; simp [h a ha])]
  rfl

lemma mem_catchInto (tag : Option String) (evs : List Event)
    (res : Option Exc) (e : Event) (h : e ∈ (catchInto tag evs res).1) :
    e ∈ evs ∨ ∃ m, e = Event.errorRecord tag m := by
  unfold catchInto at h
  rcases res with _ | exc
  · exact .inl h
  · rcases exc with m | m | _
    · simp at h
      rcases h with h | h
      · exact .inl h
      · exact .inr ⟨m, h⟩
    · simp at h
      rcases h with h | h
      · exact .inl h
      · exact .inr ⟨m, h⟩
    · exact .inl h

lemma processLocalFile_bodyEv (env : Env) (cfg : Cfg) (t : String) :
    ∀ e ∈ (processLocalFile env cfg t).1, bodyEv e = true := by
  intro e he
  unfold processLocalFile at he
  rcases hl : env.loadStructure t with exc | s <;> rw [hl] at he
  · simp at he
  · rcases s with r | r | u | c
    · rcases hf : cfg.postFilter with _ | f <;> rw [hf] at he
      · simp at he
        rcases he with rfl | rfl <;> rfl
      · by_cases hb : f (.post r) <;> simp [hb] at he
        · rcases he with rfl | rfl <;> rfl
        · subst he; rfl
    · rcases hf : cfg.storyitemFilter with _ | f <;> rw [hf] at he
      · simp at he
        rcases he with rfl | rfl <;> rfl
      · by_cases hb : f (.storyItem r) <;> simp [hb] at he
        · rcases he with rfl | rfl <;> rfl
        · subst he; rfl
    · simp at he
    · simp at he

lemma classify_local_eq (fs : String → Bool) (t p : String)
    (h : classify fs t = .ok (.localDescriptorFile p)) : p = t := by
  unfold classify at h
  by_cases hd : isDescriptorPath fs t
  · rw [hd] at h
    simp at h
    exact h.symm
  · simp only [hd, Bool.false_eq_true, if_false] at h
    exact absurd h (classifySigil_ne_local _ _)

lemma processTarget_evs_cases (env : Env) (cfg : Cfg) (t : String) :
    ∀ e ∈ (processTarget env cfg t).evs,
      bodyEv e = true ∨
      (∃ m, e = Event.errorRecord (some t) m) ∨
      (∃ m, e = Event.errorRecord (some (rstripSlash t)) m) := by
  intro e he
  unfold processTarget at he
  rcases hc : classify env.isfile t with e0 | tgt <;> simp only [hc] at he
  · rcases mem_catchInto _ _ _ _ he with h | ⟨m, rfl⟩
    · simp at h
    · exact .inr (.inr ⟨m, rfl⟩)
  · rcases tgt with p | name | name | _ | _ | _ | n
    · rcases mem_catchInto _ _ _ _ he with h | ⟨m, rfl⟩
      · exact .inl (processLocalFile_bodyEv env cfg p e h)
      · rw [classify_local_eq env.isfile t p hc]
        exact .inr (.inl ⟨m, rfl⟩)
    · rcases hfr : env.followeesResult name with e1 | l <;>
        simp only [hfr] at he
      · rcases mem_catchInto _ _ _ _ he with h | ⟨m, rfl⟩
        · simp at h
          rcases h with rfl | rfl <;> exact .inl rfl
        · exact .inr (.inr ⟨m, rfl⟩)
      · simp at he
        rcases he with rfl | rfl <;> exact .inl rfl
    · rcases mem_catchInto _ _ _ _ he with h | ⟨m, rfl⟩
      · simp at h
        subst h
        exact .inl rfl
      · exact .inr (.inr ⟨m, rfl⟩)
    · rcases mem_catchInto _ _ _ _ he with h | ⟨m, rfl⟩
      · simp at h
        subst h
        exact .inl rfl
      · exact .inr (.inr ⟨m, rfl⟩)
    · rcases mem_catchInto _ _ _ _ he with h | ⟨m, rfl⟩
      · simp at h
        subst h
        exact .inl rfl
      · exact .inr (.inr ⟨m, rfl⟩)
    · rcases mem_catchInto _ _ _ _ he with h | ⟨m, rfl⟩
      · simp at h
        subst h
        exact .inl rfl
      · exact .inr (.inr ⟨m, rfl⟩)
    · simp at he

lemma profileStep_evs_cases (env : Env) (cfg : Cfg) (li : Bool) (n : String) :
    ∀ e ∈ (profileStep env cfg li n).1,
      (∃ m, e = Event.log m) ∨
      (∃ m, e = Event.errorRecord (some n) m) ∨
      (∃ m, e = Event.errorRecord none m) ∨
      e = Event.downloadProfile false cfg.profilePic cfg.profilePicOnly
        cfg.fastUpdate cfg.stories cfg.storiesOnly cfg.postFilter.isSome
        cfg.storyitemFilter.isSome n ∨
      e = Event.downloadProfile true cfg.profilePic cfg.profilePicOnly
        cfg.fastUpdate false false cfg.postFilter.isSome false n := by
  intro e he
  unfold profileStep at he
  rcases hr : env.profileResult false n with _ | exc <;> rw [hr] at he
  · simp at he
    subst he
    exact .inr (.inr (.inr (.inl rfl)))
  · rcases exc with m | m | _
    · simp at he
      rcases he with rfl | rfl
      · exact .inr (.inr (.inr (.inl rfl)))
      · exact .inr (.inl ⟨m, rfl⟩)
    · by_cases hli : li
      · simp only [hli, if_true] at he
        simp at he
        rcases he with rfl | rfl | rfl | he
        · exact .inr (.inr (.inr (.inl rfl)))
        · exact .inl ⟨m, rfl⟩
        · exact .inl ⟨_, rfl⟩
        · rcases mem_catchInto _ _ _ _ he with h | ⟨m2, rfl⟩
          · simp at h
            subst h
            exact .inr (.inr (.inr (.inr rfl)))
          · exact .inr (.inr (.inl ⟨m2, rfl⟩))
      · simp only [hli, if_false] at he
        simp at he
        rcases he with rfl | rfl
        · exact .inr (.inr (.inr (.inl rfl)))
        · exact .inr (.inl ⟨m, rfl⟩)
    · simp at he
      subst he
      exact .inr (.inr (.inr (.inl rfl)))

lemma mem_targetLoop_evs (env : Env) (cfg : Cfg) :
    ∀ (ts P : List String) (e : Event), e ∈ (targetLoop env cfg ts P).evs →
      ∃ t ∈ ts, e ∈ (processTarget env cfg t).evs := by
  intro ts
  induction ts with
  | nil =>
      intro P e h
      simp [targetLoop] at h
  | cons t ts ih =>
      intro P e h
      unfold targetLoop at h
      by_cases hi : (processTarget env cfg t).intr <;> simp only [hi] at h
      · simp at h
        exact ⟨t, by simp, h⟩
      · simp at h
        rcases h with h | h
        · exact ⟨t, by simp, h⟩
        · obtain ⟨t2, ht2, hm⟩ := ih _ e h
          exact ⟨t2, by simp [ht2], hm⟩

lemma mem_profileLoop_evs (env : Env) (cfg : Cfg) (li : Bool) :
    ∀ (ns : List String) (e : Event), e ∈ (profileLoop env cfg li ns).1 →
      ∃ n ∈ ns, e ∈ (profileStep env cfg li n).1 := by
  intro ns
  induction ns with
  | nil =>
      intro e h
      simp [profileLoop] at h
  | cons n ns ih =>
      intro e h
      unfold profileLoop at h
      by_cases hi : (profileStep env cfg li n).2 <;> simp only [hi] at h
      · simp at h
        exact ⟨n, by simp, h⟩
      · simp at h
        rcases h with h | h
        · exact ⟨n, by simp, h⟩
        · obtain ⟨n2, hn2, hm⟩ := ih e h
          exact ⟨n2, by simp [hn2], hm⟩

lemma targetLoop_decomp (env : Env) (cfg : Cfg) :
    ∀ (ts P : List String), (targetLoop env cfg ts P).intr = false →
      (targetLoop env cfg ts P).evs =
        ts.flatMap (fun t => (processTarget env cfg t).evs) ∧
      (targetLoop env cfg ts P).profiles =
        ts.foldl (fun acc t => insertAll acc (processTarget env cfg t).adds)
          P := by
  intro ts
  induction ts with
  | nil =>
      intro P _
      simp [targetLoop]
  | cons t ts ih =>
      intro P h
      unfold targetLoop at h ⊢
      by_cases hi : (processTarget env cfg t).intr
      · simp [hi] at h
      · simp only [hi, Bool.false_eq_true, if_false] at h ⊢
        obtain ⟨he, hp⟩ := ih (insertAll P (processTarget env cfg t).adds) h
        simp [he, hp]

lemma profileLoop_decomp (env : Env) (cfg : Cfg) (li : Bool) :
    ∀ ns : List String, (profileLoop env cfg li ns).2 = false →
      (profileLoop env cfg li ns).1 =
        ns.flatMap (fun n => (profileStep env cfg li n).1) := by
  intro ns
  induction ns with
  | nil =>
      intro _
      simp [profileLoop]
  | cons n ns ih =>
      intro h
      unfold profileLoop at h ⊢
      by_cases hi : (profileStep env cfg li n).2
      · simp [hi] at h
      · simp only [hi, Bool.false_eq_true, if_false] at h ⊢
        simp [ih h]

/-- The AccountSet gathered by the raw-target loop: bare account targets and
successful followee expansions, deduplicated in insertion order. -/
def accountSet (env : Env) (cfg : Cfg) (ts : List String) : List String :=
  ts.foldl (fun acc t => insertAll acc (processTarget env cfg t).adds) []

lemma insertNew_nodup (P : List String) (n : String) (h : P.Nodup) :
    (insertNew P n).Nodup := by
  unfold insertNew
  by_cases hm : n ∈ P
  · simp [hm, h]
  · simp [hm, h, List.nodup_append]

lemma insertAll_nodup (ns : List String) :
    ∀ P : List String, P.Nodup → (insertAll P ns).Nodup := by
  induction ns with
  | nil =>
      intro P h
      exact h
  | cons a ns ih =>
      intro P h
      exact ih _ (insertNew_nodup P a h)

lemma accountSet_nodup (env : Env) (cfg : Cfg) (ts : List String) :
    (accountSet env cfg ts).Nodup := by
  unfold accountSet
  have hgen : ∀ (ts2 P : List String), P.Nodup →
      (ts2.foldl (fun acc t => insertAll acc (processTarget env cfg t).adds)
        P).Nodup := by
    intro ts2
    induction ts2 with
    | nil =>
        intro P h
        exact h
    | cons t ts2 ih =>
        intro P h
        exact ih _ (insertAll_nodup _ P h)
  exact hgen ts [] (by simp)

lemma runMain_intr_parts (env : Env) (cfg : Cfg) (li : Bool)
    (ts : List String) (h : (runMain env cfg li ts).interrupted = false) :
    (targetLoop env cfg ts []).intr = false ∧
    (profileLoop env cfg li (targetLoop env cfg ts []).profiles).2 = false := by
  have hi : (targetLoop env cfg ts []).intr = false := by
    by_contra hb
    simp only [Bool.not_eq_false] at hb
    simp [runMain, profilePhase, hb] at h
  refine ⟨hi, ?_⟩
  simp [runMain, profilePhase, hi] at h
  exact h

lemma runMain_decomp (env : Env) (cfg : Cfg) (li : Bool) (ts : List String)
    (h : (runMain env cfg li ts).interrupted = false) :
    (runMain env cfg li ts).events =
      ts.flatMap (fun t => (processTarget env cfg t).evs) ++
      profilesHeader (accountSet env cfg ts) ++
      (accountSet env cfg ts).flatMap (fun n => (profileStep env cfg li n).1) ++
      (if li then [Event.saveSession] else []) ++
      endMessages env li ts := by
  obtain ⟨h1, h2⟩ := runMain_intr_parts env cfg li ts h
  obtain ⟨he, hp⟩ := targetLoop_decomp env cfg ts [] h1
  have hpl := profileLoop_decomp env cfg li _ h2
  have hacc : (targetLoop env cfg ts []).profiles = accountSet env cfg ts := hp
  rw [hacc] at hpl h2
  simp only [runMain, profilePhase, h1, Bool.false_eq_true, if_false,
    Bool.false_or, hacc, h2, hpl, he]
  simp [List.append_assoc]

/-! ## Claim theorems about the orchestrator -/

/-- C2: in every uninterrupted run, the emitted trace decomposes into each
target's own events in sequence — every target is processed regardless of the
others' failures — and the recorded ErrorRecords are exactly the
concatenation of each target's (and each account's) own records, each tagged
with the very target (account) that failed. -/
theorem claim_C2_failure_isolation (env : Env) (cfg : Cfg) (li : Bool)
    (ts : List String) (h : (runMain env cfg li ts).interrupted = false) :
    (runMain env cfg li ts).events =
      ts.flatMap (fun t => (processTarget env cfg t).evs) ++
      profilesHeader (accountSet env cfg ts) ++
      (accountSet env cfg ts).flatMap
        (fun n => (profileStep env cfg li n).1) ++
      (if li then [Event.saveSession] else []) ++
      endMessages env li ts ∧
    errorRecordsOf (runMain env cfg li ts).events =
      ts.flatMap (fun t => errorRecordsOf (processTarget env cfg t).evs) ++
      (accountSet env cfg ts).flatMap
        (fun n => errorRecordsOf (profileStep env cfg li n).1) ∧
    (∀ t ∈ ts, ∀ tg m,
      (tg, m) ∈ errorRecordsOf (processTarget env cfg t).evs →
      tg = some t ∨ tg = some (rstripSlash t)) ∧
    (∀ n ∈ accountSet env cfg ts, ∀ tg m,
      (tg, m) ∈ errorRecordsOf (profileStep env cfg li n).1 →
      tg = some n ∨ tg = none) := by
  have hd := runMain_decomp env cfg li ts h
  refine ⟨hd, ?_, ?_, ?_⟩
  · rw [hd, errorRecordsOf_append, errorRecordsOf_append,
      errorRecordsOf_append, errorRecordsOf_append, errorRecordsOf_flatMap,
      errorRecordsOf_flatMap]
    have hh : errorRecordsOf (profilesHeader (accountSet env cfg ts)) = [] := by
      unfold profilesHeader
      split <;> rfl
    have hs : errorRecordsOf (if li then [Event.saveSession] else []) = [] := by
      cases li <;> rfl
    have hm : errorRecordsOf (endMessages env li ts) = [] := by
      unfold endMessages
      split
      · split <;> rfl
      · rfl
    simp [hh, hs, hm]
  · intro t ht tg m hmem
    unfold errorRecordsOf at hmem
    rw [List.mem_filterMap] at hmem
    obtain ⟨e, he, hef⟩ := hmem
    rcases processTarget_evs_cases env cfg t e he with hb | ⟨m2, rfl⟩ |
      ⟨m2, rfl⟩
    · cases e <;> simp [bodyEv] at hb hef
    · simp only [Option.some.injEq, Prod.mk.injEq] at hef
      exact .inl hef.1.symm
    · simp only [Option.some.injEq, Prod.mk.injEq] at hef
      exact .inr hef.1.symm
  · intro n hn tg m hmem
    unfold errorRecordsOf at hmem
    rw [List.mem_filterMap] at hmem
    obtain ⟨e, he, hef⟩ := hmem
    rcases profileStep_evs_cases env cfg li n e he with ⟨m2, rfl⟩ |
      ⟨m2, rfl⟩ | ⟨m2, rfl⟩ | rfl | rfl
    · simp at hef
    · simp only [Option.some.injEq, Prod.mk.injEq] at hef
      exact .inl hef.1.symm
    · simp only [Option.some.injEq, Prod.mk.injEq] at hef
      exact .inr hef.1.symm
    · simp at hef
    · simp at hef

/-- C4: session persistence runs exactly once per run when the session is
authenticated — whether or not an interrupt cut the loops short — and never
when unauthenticated. -/
theorem claim_C4_session_persistence (env : Env) (cfg : Cfg) (li : Bool)
    (ts : List String) :
    ((runMain env cfg li ts).events.filter isSaveEv).length =
      if li then 1 else 0 := by
  have hsave1 : (targetLoop env cfg ts []).evs.filter isSaveEv = [] := by
    rw [List.filter_eq_nil_iff]
    intro e he
    obtain ⟨t, _, hm⟩ := mem_targetLoop_evs env cfg ts [] e he
    rcases processTarget_evs_cases env cfg t e hm with hb | ⟨m, rfl⟩ | ⟨m, rfl⟩
    · cases e <;> simp_all [bodyEv, isSaveEv]
    · simp [isSaveEv]
    · simp [isSaveEv]
  have hsave2 :
      (profilePhase env cfg li (targetLoop env cfg ts [])).1.filter isSaveEv
        = [] := by
    unfold profilePhase
    by_cases hi : (targetLoop env cfg ts []).intr
    · simp [hi]
    · simp only [hi, Bool.false_eq_true, if_false]
      rw [List.filter_append]
      have hh : (profilesHeader (targetLoop env cfg ts []).profiles).filter
          isSaveEv = [] := by
        unfold profilesHeader
        split <;> rfl
      have hl : ((profileLoop env cfg li
          (targetLoop env cfg ts []).profiles).1).filter isSaveEv = [] := by
        rw [List.filter_eq_nil_iff]
        intro e he
        obtain ⟨n, _, hm⟩ := mem_profileLoop_evs env cfg li _ e he
        rcases profileStep_evs_cases env cfg li n e hm with ⟨m, rfl⟩ |
          ⟨m, rfl⟩ | ⟨m, rfl⟩ | rfl | rfl <;> simp [isSaveEv]
      rw [hh, hl]
      rfl
  have h3 : ∀ b : Bool,
      ((if b then [Event.printInterrupted] else []).filter isSaveEv) = [] := by
    intro b
    cases b <;> rfl
  have h4 : ((if li then [Event.saveSession] else []).filter isSaveEv) =
      if li then [Event.saveSession] else [] := by
    cases li <;> rfl
  have h5 : (endMessages env li ts).filter isSaveEv = [] := by
    unfold endMessages
    by_cases hts : ts.isEmpty <;> by_cases hli : li <;>
      simp [hts, hli, isSaveEv]
  simp only [runMain]
  rw [List.filter_append, List.filter_append, List.filter_append,
    List.filter_append, hsave1, hsave2, h3, h4, h5]
  cases li <;> simp

/-- C9: every anonymous-copy `download_profile` invocation in any run — even
one whose configuration requests stories and sets a storyitem filter — is
made with stories off, stories-only off, and no storyitem filter. -/
theorem claim_C9_anonymous_retry_no_stories (env : Env) (cfg : Cfg)
    (li : Bool) (ts : List String) (p po fu st so pf sf : Bool) (n : String)
    (h : Event.downloadProfile true p po fu st so pf sf n ∈
      (runMain env cfg li ts).events) :
    st = false ∧ so = false ∧ sf = false := by
  simp only [runMain] at h
  simp only [List.mem_append] at h
  rcases h with ((((h | h) | h) | h) | h)
  · obtain ⟨t, _, hm⟩ := mem_targetLoop_evs env cfg ts [] _ h
    rcases processTarget_evs_cases env cfg t _ hm with hb | ⟨m, he⟩ | ⟨m, he⟩
    · simp [bodyEv] at hb
    · simp at he
    · simp at he
  · unfold profilePhase at h
    by_cases hi : (targetLoop env cfg ts []).intr
    · simp [hi] at h
    · simp only [hi, Bool.false_eq_true, if_false] at h
      rw [List.mem_append] at h
      rcases h with h | h
      · unfold profilesHeader at h
        split at h <;> simp at h
      · obtain ⟨n2, _, hm⟩ := mem_profileLoop_evs env cfg li _ _ h
        rcases profileStep_evs_cases env cfg li n2 _ hm with ⟨m, he⟩ |
          ⟨m, he⟩ | ⟨m, he⟩ | he | he
        · simp at he
        · simp at he
        · simp at he
        · simp at he
        · simp only [Event.downloadProfile.injEq] at he
          obtain ⟨-, -, -, -, hst, hso, -, hsf, -⟩ := he
          exact ⟨hst, hso, hsf⟩
  · split at h <;> simp at h
  · split at h <;> simp at h
  · unfold endMessages at h
    split at h
    · split at h <;> simp at h
    · simp at h

lemma profileStep_anonCount_self_li (env : Env) (cfg : Cfg) (n m : String)
    (hpne : env.profileResult false n = some (.profileNotExists m)) :
    anonRetryCount (profileStep env cfg true n).1 n = 1 := by
  unfold profileStep
  simp only [hpne, if_true]
  unfold catchInto
  rcases env.profileResult true n with _ | exc
  · simp [anonRetryCount, isAnonDpFor, List.filter]
  · rcases exc with m2 | m2 | _ <;>
      simp [anonRetryCount, isAnonDpFor, List.filter]

lemma profileStep_anonCount_self_notli (env : Env) (cfg : Cfg) (n m : String)
    (hpne : env.profileResult false n = some (.profileNotExists m)) :
    anonRetryCount (profileStep env cfg false n).1 n = 0 ∧
    Event.errorRecord (some n) m ∈ (profileStep env cfg false n).1 := by
  unfold profileStep
  simp only [hpne]
  simp [anonRetryCount, isAnonDpFor, List.filter]

lemma profileStep_anonCount_other (env : Env) (cfg : Cfg) (li : Bool)
    (n2 n : String) (hne : n2 ≠ n) :
    anonRetryCount (profileStep env cfg li n2).1 n = 0 := by
  apply anonCount_eq_zero
  intro e he
  rcases profileStep_evs_cases env cfg li n2 e he with ⟨m, rfl⟩ | ⟨m, rfl⟩ |
    ⟨m, rfl⟩ | rfl | rfl
  · rfl
  · rfl
  · rfl
  · simp [isAnonDpFor]
  · simp [isAnonDpFor, hne]

lemma anonCount_flatMap_accounts (env : Env) (cfg : Cfg) (li : Bool)
    (n m : String) (hpne : env.profileResult false n =
      some (.profileNotExists m)) :
    ∀ ns : List String, ns.Nodup → n ∈ ns →
      anonRetryCount (ns.flatMap (fun n2 => (profileStep env cfg li n2).1)) n
        = (if li then 1 else 0) := by
  intro ns
  induction ns with
  | nil => intro _ h; simp at h
  | cons a ns ih =>
      intro hnodup hmem
      rw [List.flatMap_cons, anonCount_append]
      by_cases ha : a = n
      · subst ha
        have hnot : a ∉ ns := (List.nodup_cons.mp hnodup).1
        have htail : anonRetryCount
            (ns.flatMap (fun n2 => (profileStep env cfg li n2).1)) a = 0 := by
          apply anonCount_eq_zero
          intro e he
          rw [List.mem_flatMap] at he
          obtain ⟨n2, hn2, he2⟩ := he
          have hne : n2 ≠ a := fun hq => hnot (hq ▸ hn2)
          have := profileStep_anonCount_other env cfg li n2 a hne
          unfold anonRetryCount at this
          by_contra hb
          simp only [Bool.not_eq_false] at hb
          have : e ∈ (profileStep env cfg li n2).1.filter (isAnonDpFor a) :=
            List.mem_filter.mpr ⟨he2, hb⟩
          simp_all [List.length_eq_zero]
        cases li
        · rw [(profileStep_anonCount_self_notli env cfg a m hpne).1, htail]
          rfl
        · rw [profileStep_anonCount_self_li env cfg a m hpne, htail]
          rfl
      · have hmem2 : n ∈ ns := by
          rcases List.mem_cons.mp hmem with h | h
          · exact absurd h.symm ha
          · exact h
        rw [profileStep_anonCount_other env cfg li a n
          (fun hq => ha hq), ih (List.nodup_cons.mp hnodup).2 hmem2]
        simp

/-- C3: in every uninterrupted run, for each account of the AccountSet whose
authenticated profile download raises the account-not-found fault, an
authenticated session performs exactly one anonymous-copy retry of that same
account, while an unauthenticated session performs zero retries and the
fault is recorded by the per-target boundary. -/
theorem claim_C3_anonymous_retry (env : Env) (cfg : Cfg) (li : Bool)
    (ts : List String) (n m : String)
    (hmem : n ∈ accountSet env cfg ts)
    (h : (runMain env cfg li ts).interrupted = false)
    (hpne : env.profileResult false n = some (.profileNotExists m)) :
    anonRetryCount (runMain env cfg li ts).events n = (if li then 1 else 0) ∧
    (li = false →
      Event.errorRecord (some n) m ∈ (runMain env cfg li ts).events) := by
  have hd := runMain_decomp env cfg li ts h
  constructor
  · rw [hd, anonCount_append, anonCount_append, anonCount_append,
      anonCount_append]
    have hz1 : anonRetryCount
        (ts.flatMap (fun t => (processTarget env cfg t).evs)) n = 0 := by
      apply anonCount_eq_zero
      intro e he
      rw [List.mem_flatMap] at he
      obtain ⟨t, _, hm⟩ := he
      rcases processTarget_evs_cases env cfg t e hm with hb | ⟨m2, rfl⟩ |
        ⟨m2, rfl⟩
      · cases e <;> simp_all [bodyEv, isAnonDpFor]
      · rfl
      · rfl
    have hz2 : anonRetryCount (profilesHeader (accountSet env cfg ts)) n
        = 0 := by
      unfold profilesHeader
      split <;> rfl
    have hz4 : anonRetryCount (if li then [Event.saveSession] else []) n
        = 0 := by
      cases li <;> rfl
    have hz5 : anonRetryCount (endMessages env li ts) n = 0 := by
      unfold endMessages
      split
      · split <;> rfl
      · rfl
    rw [hz1, hz2, hz4, hz5,
      anonCount_flatMap_accounts env cfg li n m hpne
        (accountSet env cfg ts) (accountSet_nodup env cfg ts) hmem]
    cases li <;> rfl
  · intro hli
    subst hli
    rw [hd]
    have hrec := (profileStep_anonCount_self_notli env cfg n m hpne).2
    simp only [List.mem_append]
    exact .inl (.inl (.inr (List.mem_flatMap.mpr ⟨n, hmem, hrec⟩)))

/-! ## Concrete environments for witnesses and counterexamples -/

/-- A benign concrete environment: no local files, every download succeeds,
followee retrieval is rate-limited. -/
def envW : Env :=
  ⟨"instaloader", fun _ => false, fun _ => .error (.fault "file error"),
   fun _ => none, fun _ => none,
   fun _ => .error (.fault "429 Too Many Requests"), fun _ => none,
   none, none, none, fun _ _ => none⟩

/-- A concrete environment whose only local file is `p.json`, a serialized
Profile for account `alice`. -/
def envP : Env :=
  ⟨"instaloader", fun s => s == "p.json",
   fun s => if s == "p.json" then .ok (.profile "alice")
     else .error (.fault "file error"),
   fun _ => none, fun _ => none, fun _ => .error (.fault "file error"),
   fun _ => none, none, none, none, fun _ _ => none⟩

/-- A concrete environment where the authenticated profile download of
`alice` raises the account-not-found fault and the anonymous copy succeeds. -/
def envN : Env :=
  ⟨"instaloader", fun _ => false, fun _ => .error (.fault "file error"),
   fun _ => none, fun _ => none, fun _ => .error (.fault "file error"),
   fun _ => none, none, none, none,
   fun anonymous n =>
     if anonymous then none
     else if n == "alice" then
       some (.profileNotExists "Profile alice does not exist.")
     else none⟩

/-- The default `_main` configuration: profile pic on, everything else off,
no filters. -/
def cfgW : Cfg := ⟨true, false, false, false, false, none, none⟩

/-- A configuration that requests stories and sets a storyitem filter. -/
def cfgS : Cfg :=
  ⟨true, false, false, true, false, none, some (fun _ => true)⟩

/-- Witness for C2: with followee expansion of `@alice` rate-limited and
`bob` fine, the run's error records are exactly the per-target ones. -/
theorem claim_C2_failure_isolation_witness :
    errorRecordsOf (runMain envW cfgW true ["@alice", "bob"]).events =
      ["@alice", "bob"].flatMap
        (fun t => errorRecordsOf (processTarget envW cfgW t).evs) ++
      (accountSet envW cfgW ["@alice", "bob"]).flatMap
        (fun n => errorRecordsOf (profileStep envW cfgW true n).1) :=
  (claim_C2_failure_isolation envW cfgW true ["@alice", "bob"]
    (by decide)).2.1

/-- Witness for C3: the authenticated run over `alice` performs exactly one
anonymous retry. -/
theorem claim_C3_anonymous_retry_witness :
    anonRetryCount (runMain envN cfgW true ["alice"]).events "alice" = 1 := by
  have h := (claim_C3_anonymous_retry envN cfgW true ["alice"] "alice"
    "Profile alice does not exist." (by decide) (by decide) (by decide)).1
  simpa using h

/-- Witness for C9: the anonymous retry emitted in a run configured with
stories and a storyitem filter still has stories off and no storyitem
filter. -/
theorem claim_C9_anonymous_retry_no_stories_witness :
    Event.downloadProfile true true false false false false false false
      "alice" ∈ (runMain envN cfgS true ["alice"]).events ∧
    (false = false ∧ false = false ∧ false = false) :=
  ⟨by decide, claim_C9_anonymous_retry_no_stories envN cfgS true ["alice"]
    true false false false false false false "alice" (by decide)⟩

/-- C6 counterexample: a Profile-tagged local descriptor does NOT terminate
the run — the rejection is absorbed by the per-target failure boundary as an
error record, the next target is still processed, and the run completes
uninterrupted. -/
theorem claim_C6_profile_json_counterexample :
    (runMain envP cfgW false ["p.json", "bob"]).interrupted = false ∧
    Event.errorRecord (some "p.json")
      "Profile JSON are ignored. Pass \"alice\" to download that profile" ∈
      (runMain envP cfgW false ["p.json", "bob"]).events ∧
    Event.downloadProfile false true false false false false false false
      "bob" ∈ (runMain envP cfgW false ["p.json", "bob"]).events := by
  decide

/-- C6 (amended): a Profile-tagged local descriptor (and likewise any other
unsupported tag) raises the pointed invalid-argument fault inside the
per-target boundary: it is recorded as that target's error record, nothing
is added to the account set, and no interrupt escapes — the batch proceeds
and the run ends normally rather than with a fatal non-zero exit. -/
theorem claim_C6_descriptor_rejection_amended (env : Env) (cfg : Cfg)
    (t : String) :
    (∀ u, isDescriptorPath env.isfile t = true →
      env.loadStructure t = .ok (.profile u) →
      (processTarget env cfg t).evs =
        [Event.errorRecord (some t) ("Profile JSON are ignored. Pass \"" ++
          u ++ "\" to download that profile")] ∧
      (processTarget env cfg t).adds = [] ∧
      (processTarget env cfg t).intr = false) ∧
    (∀ c, isDescriptorPath env.isfile t = true →
      env.loadStructure t = .ok (.other c) →
      (processTarget env cfg t).evs =
        [Event.errorRecord (some t)
          (c ++ " JSON file not supported as target")] ∧
      (processTarget env cfg t).adds = [] ∧
      (processTarget env cfg t).intr = false) := by
  constructor
  · intro u h1 h2
    have hc : classify env.isfile t = .ok (.localDescriptorFile t) := by
      unfold classify
      rw [h1]
      simp
    unfold processTarget
    simp only [hc]
    simp [processLocalFile, h2, catchInto]
  · intro c h1 h2
    have hc : classify env.isfile t = .ok (.localDescriptorFile t) := by
      unfold classify
      rw [h1]
      simp
    unfold processTarget
    simp only [hc]
    simp [processLocalFile, h2, catchInto]

/-- Witness for C6 (amended): the `p.json` Profile descriptor yields exactly
its own error record. -/
theorem claim_C6_descriptor_rejection_amended_witness :
    (processTarget envP cfgW "p.json").evs =
      [Event.errorRecord (some "p.json")
        "Profile JSON are ignored. Pass \"alice\" to download that profile"] :=
  ((claim_C6_descriptor_rejection_amended envP cfgW "p.json").1 "alice"
    (by decide) rfl).1

set_option maxRecDepth 16384 in
/-- C7 counterexample: with an empty target list and an unauthenticated
session, output IS produced — the multi-line usage string is logged — so
"no output when unauthenticated" fails. -/
theorem claim_C7_empty_targets_counterexample :
    (runMain envW cfgW false []).events =
      [Event.log ("usage:" ++ usage_string "instaloader")] ∧
    (runMain envW cfgW false []).events ≠ [] := by
  decide

/-- C7 (amended): with an empty target list, an authenticated session logs
the one-line "no targets" note (after saving the session), while an
unauthenticated session logs the usage string. -/
theorem claim_C7_empty_targets_amended (env : Env) (cfg : Cfg) (li : Bool) :
    (runMain env cfg li []).events =
      if li then
        [Event.saveSession,
         Event.log "No targets were specified, thus nothing has been downloaded."]
      else [Event.log ("usage:" ++ usage_string env.argv0)] := by
  cases li <;> rfl

/-! ## Login-name lower-casing (`main`) -/

/-- Python `str.lower()` restricted to its ASCII action, as used on login
names. -/
def strLower (s : String) : String := ⟨s.data.map Char.toLower⟩

/-- Oracles for the login phase: whether `load_session_from_file` finds a
session file, whether the context is logged in afterwards, and what
`test_login()` answers. -/
structure LoginEnv where
  sessionLoadOk : String → Bool
  loggedInAfterLoad : String → Bool
  testLogin : Option String

/-- Observable effects of the login phase. -/
inductive LEvent where
  | loadSession (username : String) (sessionfile : Option String)
  | logLine (m : String)
  | explicitLogin (username : String)
  | interactiveLogin (username : String)
deriving DecidableEq, Repr

/-- Lines 77-90 of `_main`: when a username is given, try to load its
session file (logging on a miss), re-validate with `test_login`, fall back
to explicit or interactive login, and log the final identity. -/
def loginPhase (env : LoginEnv) (username : Option String)
    (password : Option String) (sessionfile : Option String) : List LEvent :=
  match username with
  | none => []
  | some u =>
      [LEvent.loadSession u sessionfile] ++
      (if env.sessionLoadOk u then []
       else [LEvent.logLine "Session file does not exist yet - Logging in."]) ++
      (if !(env.loggedInAfterLoad u) || !(env.testLogin == some u) then
        match password with
        | some _ => [LEvent.explicitLogin u]
        | none => [LEvent.interactiveLogin u]
       else []) ++
      [LEvent.logLine ("Logged in as " ++ u ++ ".")]

/-- Line 324 of `main`: the username handed to `_main` is
`args.login.lower()` when a login name was supplied, `None` otherwise. -/
def main_username (login : Option String) : Option String :=
  match login with
  | some l => some (strLower l)
  | none => none

/-- The composition `main` performs: the login phase applied to the
lower-cased login name. -/
def mainLogin (env : LoginEnv) (login password sessionfile : Option String) :
    List LEvent :=
  loginPhase env (main_username login) password sessionfile

/-- C10: the username used for session loading, validation and login is the
lower-cased supplied name, and two invocations whose login names have equal
lower-cased forms produce identical login-phase behaviour (the same session
identity). -/
theorem claim_C10_login_lowercased (env : LoginEnv)
    (password sessionfile : Option String) (l l2 : String)
    (hcase : strLower l = strLower l2) :
    mainLogin env (some l) password sessionfile =
      mainLogin env (some l2) password sessionfile ∧
    (∀ u sf, LEvent.loadSession u sf ∈
      mainLogin env (some l) password sessionfile → u = strLower l) ∧
    (∀ u, LEvent.explicitLogin u ∈
      mainLogin env (some l) password sessionfile → u = strLower l) ∧
    (∀ u, LEvent.interactiveLogin u ∈
      mainLogin env (some l) password sessionfile → u = strLower l) := by
  refine ⟨?_, ?_, ?_, ?_⟩
  · simp only [mainLogin, main_username]
    rw [hcase]
  · intro u sf h
    unfold mainLogin main_username loginPhase at h
    by_cases h1 : env.sessionLoadOk (strLower l) <;>
      by_cases h2 : (!(env.loggedInAfterLoad (strLower l)) ||
        !(env.testLogin == some (strLower l))) = true <;>
        rcases password with _ | pw <;> simp [h1, h2] at h <;> tauto
  · intro u h
    unfold mainLogin main_username loginPhase at h
    by_cases h1 : env.sessionLoadOk (strLower l) <;>
      by_cases h2 : (!(env.loggedInAfterLoad (strLower l)) ||
        !(env.testLogin == some (strLower l))) = true <;>
        rcases password with _ | pw <;> simp [h1, h2] at h <;> tauto
  · intro u h
    unfold mainLogin main_username loginPhase at h
    by_cases h1 : env.sessionLoadOk (strLower l) <;>
      by_cases h2 : (!(env.loggedInAfterLoad (strLower l)) ||
        !(env.testLogin == some (strLower l))) = true <;>
        rcases password with _ | pw <;> simp [h1, h2] at h <;> tauto

/-- A concrete login environment for the C10 witness. -/
def lenvW : LoginEnv := ⟨fun _ => false, fun _ => false, none⟩

/-- Witness for C10: `Alice` and `aLICE` yield the same login behaviour. -/
theorem claim_C10_login_lowercased_witness :
    mainLogin lenvW (some "Alice") none none =
      mainLogin lenvW (some "aLICE") none none :=
  (claim_C10_login_lowercased lenvW none none "Alice" "aLICE" (by decide)).1
